import Mathlib

/-!  Verification development for the eventsocket FreeSWITCH event-socket
     library (src/eventsocket/eventsocket.go).

     Shallow embedding conventions: Go strings and byte slices are modelled
     as lists of byte values (`List Nat`); Go maps as association lists in
     iteration order; the stdlib boundaries (net/textproto, encoding/json,
     net/url) as explicit executable functions over those byte lists.
     A Go runtime panic and a log.Fatal process exit are modelled as
     dedicated result constructors, since the surrounding code never
     observes a return value in those cases. -/

namespace EventSocket

/-- Go strings are byte strings; the protocol text in scope is ASCII, so a
    string literal is modelled by its character codes (equal to its UTF-8
    bytes for ASCII text). -/
abbrev B := List Nat

def asBytes (s : String) : B := s.data.map Char.toNat

/-- ASCII lower-casing of one byte (`bytes.ToLower` restricted to the ASCII
    subset, which is all the protocol uses for header keys). -/
def lowerB (c : Nat) : Nat := if 65 ≤ c ∧ c ≤ 90 then c + 32 else c

/-- ASCII upper-casing of one byte. -/
def upperB (c : Nat) : Nat := if 97 ≤ c ∧ c ≤ 122 then c - 32 else c

/-- The scanning loop of `capitalize` (eventsocket.go lines 313-324): in the
    armed state the current byte is upper-cased and the state drops (without
    looking at separators); otherwise the byte passes through unchanged and a
    '-' or '_' re-arms the state for the next byte. -/
def camelGo : Bool → B → B
  | _, [] => []
  | true, c :: rest => upperB c :: camelGo false rest
  | false, c :: rest => c :: camelGo (c == 45 || c == 95) rest

/-- `capitalize` (eventsocket.go lines 304-326). Keys starting with '_' are
    returned unchanged; a key of length > 9 whose original bytes 1..8 equal
    `ariable_` is lower-cased wholesale with its first byte overwritten by
    'V'; every other key is lower-cased and then camel-cased at the start and
    after every '-' or '_'.  Go indexes `s[0]`, so an empty key panics; the
    panic is modelled at the call sites and this function returns [] on []. -/
def capitalize (s : B) : B :=
  if s.head? = some 95 then s
  else if 9 < s.length ∧ (s.drop 1).take 8 = asBytes "ariable_" then
    86 :: (s.map lowerB).drop 1
  else camelGo true (s.map lowerB)

/-- `strconv.Atoi` digits: value of a non-empty all-digit byte string. -/
def digitsToNat (b : B) : Option Nat :=
  if b = [] then none
  else if b.all (fun c => 48 ≤ c && c ≤ 57) then
    some (b.foldl (fun a c => 10 * a + (c - 48)) 0)
  else none

/-- `strconv.Atoi`: optional sign, decimal digits, failing on empty input,
    stray bytes, or a value outside the 64-bit int range (ErrRange). -/
def atoi (s : B) : Option Int :=
  let raw : Option Int :=
    match s with
    | 43 :: rest => (digitsToNat rest).map (fun n => (n : Int))
    | 45 :: rest => (digitsToNat rest).map (fun n => -(n : Int))
    | _ => (digitsToNat s).map (fun n => (n : Int))
  match raw with
  | none => none
  | some v => if v < -(2 ^ 63) ∨ (2 ^ 63 : Int) ≤ v then none else some v

/-- `textproto.MIMEHeader.Get`: first value stored for the key, or "" when
    absent.  Keys are kept in canonical MIME form in the association list, as
    `ReadMIMEHeader` produces them, so the lookup is a plain first-match. -/
def hdrGet (hdr : List (B × B)) (k : B) : B :=
  ((hdr.find? (fun p => p.1 = k)).map Prod.snd).getD []

/-- One hexadecimal digit. -/
def hexDigit (c : Nat) : Option Nat :=
  if 48 ≤ c ∧ c ≤ 57 then some (c - 48)
  else if 97 ≤ c ∧ c ≤ 102 then some (c - 87)
  else if 65 ≤ c ∧ c ≤ 70 then some (c - 55)
  else none

/-- `url.QueryUnescape`: '%' must be followed by two hex digits, '+' decodes
    to a space, anything else passes through; a malformed escape is an error
    (`none`). -/
def queryUnescape : B → Option B
  | [] => some []
  | 37 :: a :: b :: rest =>
    match hexDigit a, hexDigit b with
    | some x, some y => (queryUnescape rest).map (fun t => (16 * x + y) :: t)
    | _, _ => none
  | 37 :: _ => none
  | 43 :: rest => (queryUnescape rest).map (fun t => 32 :: t)
  | c :: rest => (queryUnescape rest).map (fun t => c :: t)

/-- A Go `interface{}` value as stored in `EventHeader` by this library:
    either a header string (plain-text path) or a value produced by
    `json.Unmarshal` into `map[string]interface{}` (JSON path).  Unmarshal
    stores JSON numbers as float64; the numeral's literal bytes are kept
    here since the library never does arithmetic on them.  Note the `case
    int` in eventsocket.go line 233 is unreachable: Unmarshal never stores
    an `int` in an `interface{}`, so no constructor models it. -/
inductive GoVal
  | str (s : B)
  | num (lit : B)
  | boolean (b : Bool)
  | null
  | arr (xs : List GoVal)
  | obj (fs : List (B × GoVal))

/-- `Event` (eventsocket.go lines 456-459): header mapping plus raw body.
    The Go map is modelled as an association list in insertion order. -/
structure Event where
  Header : List (B × GoVal)
  Body : B

/-- Go map assignment `m[k] = v`: overwrite an existing entry or append. -/
def insertKV (m : List (B × GoVal)) (k : B) (v : GoVal) : List (B × GoVal) :=
  if m.any (fun p => p.1 = k) then
    m.map (fun p => if p.1 = k then (k, v) else p)
  else m ++ [(k, v)]

/-- Go map lookup `m[k]` returning presence. -/
def lookupKV (m : List (B × GoVal)) (k : B) : Option GoVal :=
  (m.find? (fun p => p.1 = k)).map Prod.snd

/-- Go `delete(m, k)`. -/
def removeKV (m : List (B × GoVal)) (k : B) : List (B × GoVal) :=
  m.filter (fun p => ¬ p.1 = k)

/-- `Event.Get` (eventsocket.go lines 469-472).  The Go body is the type
    assertion `r.Header[key].(string)`: when the key is absent the map
    yields an untyped nil and the assertion panics, and when the stored
    value is any non-string (a JSON number, bool, null, array or object)
    the assertion panics as well.  `none` models the panic. -/
def Event.Get (e : Event) (key : B) : Option B :=
  match lookupKV e.Header key with
  | some (.str s) => some s
  | _ => none

/-- A byte allowed in a MIME header field name (Go textproto
    `validHeaderFieldByte`: the RFC 7230 token characters). -/
def validHeaderFieldByte (c : Nat) : Bool :=
  (48 ≤ c && c ≤ 57) || (65 ≤ c && c ≤ 90) || (97 ≤ c && c ≤ 122) ||
  c == 33 || c == 35 || c == 36 || c == 37 || c == 38 || c == 39 ||
  c == 42 || c == 43 || c == 45 || c == 46 || c == 94 || c == 95 ||
  c == 96 || c == 124 || c == 126

/-- The case-folding loop of `textproto.CanonicalMIMEHeaderKey`: upper-case
    at the start and after each '-', lower-case elsewhere. -/
def canonLoop : Bool → B → B
  | _, [] => []
  | up, c :: rest =>
    (if up then upperB c else lowerB c) :: canonLoop (c == 45) rest

/-- `textproto.CanonicalMIMEHeaderKey`: keys containing a byte that is not
    a valid header-field byte are returned unchanged. -/
def canonicalMIME (s : B) : B :=
  if s.all validHeaderFieldByte then canonLoop true s else s

/-- One line of a header block: bytes up to the first LF with a trailing CR
    stripped, plus the remainder; `none` when no LF remains (the reader hits
    EOF mid-line and `ReadMIMEHeader` fails). -/
def splitLine (b : B) : Option (B × B) :=
  match b.findIdx? (fun c => c == 10) with
  | none => none
  | some i =>
    let l := b.take i
    some (if l.getLast? = some 13 then l.dropLast else l, b.drop (i + 1))

/-- `textproto.ReadMIMEHeader` on a byte string: `Name: value` lines up to a
    blank line, keys canonicalized, leading spaces and tabs of the value
    skipped; a line without a colon is a protocol error.  Returns the header
    list (document order) and the bytes after the blank line.  Line folding
    and continuation lines are not modelled (the library's frames do not use
    them). -/
def mimeParse : Nat → B → Option (List (B × B) × B)
  | 0, _ => none
  | fuel + 1, b =>
    match splitLine b with
    | none => none
    | some (line, rest) =>
      if line = [] then some ([], rest)
      else
        match line.findIdx? (fun c => c == 58) with
        | none => none
        | some i =>
          let key := canonicalMIME (line.take i)
          let v := (line.drop (i + 1)).dropWhile (fun c => c == 32 || c == 9)
          (mimeParse fuel rest).map (fun pr => ((key, v) :: pr.1, pr.2))

/-- Keep the first entry for each key: a `map[string][]string` MIME header
    collapsed to the `v[0]` view that `copyHeaders` and `Get` use. -/
def dedupKeys : List (B × B) → List (B × B)
  | [] => []
  | p :: rest => p :: dedupKeys (rest.filter (fun q => ¬ q.1 = p.1))
termination_by l => l.length
decreasing_by
  simp only [List.length_cons]
  exact Nat.lt_succ_of_le (List.length_filter_le _ _)

/-- `copyHeaders` (eventsocket.go lines 286-299): each source key is
    capitalized and its first value stored; with `decode` set the value is
    percent-unescaped, keeping the raw value when unescaping fails. -/
def copyHeaders (src : List (B × B)) (dst : List (B × GoVal)) (decode : Bool) :
    List (B × GoVal) :=
  src.foldl
    (fun acc p =>
      let key := capitalize p.1
      if decode then
        match queryUnescape p.2 with
        | some d => insertKV acc key (.str d)
        | none => insertKV acc key (.str p.2)
      else insertKV acc key (.str p.2))
    dst

/-- JSON whitespace. -/
def isWs (c : Nat) : Bool := c == 32 || c == 9 || c == 10 || c == 13

def skipWs (b : B) : B := b.dropWhile isWs

def isDigit (c : Nat) : Bool := 48 ≤ c && c ≤ 57

/-- A byte that can occur inside a JSON number literal. -/
def numChar (c : Nat) : Bool :=
  isDigit c || c == 45 || c == 43 || c == 46 || c == 101 || c == 69

/-- Single-character JSON string escapes. -/
def escByte (e : Nat) : Option Nat :=
  if e == 34 then some 34
  else if e == 92 then some 92
  else if e == 47 then some 47
  else if e == 98 then some 8
  else if e == 102 then some 12
  else if e == 110 then some 10
  else if e == 114 then some 13
  else if e == 116 then some 9
  else none

/-- UTF-8 encoding of a code point, for \uXXXX escapes. -/
def utf8Encode (n : Nat) : B :=
  if n < 128 then [n]
  else if n < 2048 then [192 + n / 64, 128 + n % 64]
  else if n < 65536 then [224 + n / 4096, 128 + (n / 64) % 64, 128 + n % 64]
  else [240 + n / 262144, 128 + (n / 4096) % 64, 128 + (n / 64) % 64, 128 + n % 64]

/-- Body of a JSON string after the opening quote: decoded content plus the
    remainder after the closing quote.  Unescaped control bytes are an
    error, as in encoding/json; surrogate-pair combining for \uXXXX is not
    modelled (no frame in this library uses it). -/
def parseStrBody : B → Option (B × B)
  | [] => none
  | 34 :: rest => some ([], rest)
  | 92 :: 117 :: h1 :: h2 :: h3 :: h4 :: r =>
    match hexDigit h1, hexDigit h2, hexDigit h3, hexDigit h4 with
    | some a, some b, some c, some d =>
      (parseStrBody r).map
        (fun pr => (utf8Encode (4096 * a + 256 * b + 16 * c + d) ++ pr.1, pr.2))
    | _, _, _, _ => none
  | 92 :: e :: r =>
    match escByte e with
    | some x => (parseStrBody r).map (fun pr => (x :: pr.1, pr.2))
    | none => none
  | [92] => none
  | c :: rest =>
    if c < 32 then none
    else (parseStrBody rest).map (fun pr => (c :: pr.1, pr.2))

/-- Consume a non-empty digit run. -/
def chompDigits (b : B) : Option B :=
  if (b.takeWhile isDigit).isEmpty then none else some (b.dropWhile isDigit)

/-- Integer part of the JSON number grammar: `0` or a nonzero digit run. -/
def chompInt : B → Option B
  | 48 :: r => some r
  | c :: r => if isDigit c then some ((c :: r).dropWhile isDigit) else none
  | [] => none

def chompFrac : B → Option B
  | 46 :: r => chompDigits r
  | b => some b

def chompExp : B → Option B
  | 101 :: 43 :: r => chompDigits r
  | 101 :: 45 :: r => chompDigits r
  | 101 :: r => chompDigits r
  | 69 :: 43 :: r => chompDigits r
  | 69 :: 45 :: r => chompDigits r
  | 69 :: r => chompDigits r
  | b => some b

/-- The JSON number grammar `-?(0|[1-9][0-9]*)(\.[0-9]+)?([eE][+-]?[0-9]+)?`. -/
def validNum (b : B) : Bool :=
  let b1 := match b with | 45 :: r => r | _ => b
  match chompInt b1 with
  | none => false
  | some r =>
    match chompFrac r with
    | none => false
    | some r2 =>
      match chompExp r2 with
      | none => false
      | some r3 => r3.isEmpty

mutual

/-- One JSON value, fuel-bounded (the fuel exceeds the token count for any
    input when seeded with the byte length plus one). -/
def parseVal : Nat → B → Option (GoVal × B)
  | 0, _ => none
  | fuel + 1, b =>
    match skipWs b with
    | [] => none
    | 34 :: r => (parseStrBody r).map (fun pr => (.str pr.1, pr.2))
    | 123 :: r => (parseMembers fuel true (skipWs r)).map (fun pr => (.obj pr.1, pr.2))
    | 91 :: r => (parseElems fuel true (skipWs r)).map (fun pr => (.arr pr.1, pr.2))
    | 116 :: 114 :: 117 :: 101 :: r => some (.boolean true, r)
    | 102 :: 97 :: 108 :: 115 :: 101 :: r => some (.boolean false, r)
    | 110 :: 117 :: 108 :: 108 :: r => some (.null, r)
    | c :: r =>
      if c == 45 || isDigit c then
        let lit := (c :: r).takeWhile numChar
        if validNum lit then some (.num lit, (c :: r).dropWhile numChar)
        else none
      else none

/-- Members of a JSON object after the opening brace (and whitespace); the
    closing brace may come first only before any member. -/
def parseMembers : Nat → Bool → B → Option (List (B × GoVal) × B)
  | 0, _, _ => none
  | fuel + 1, first, b =>
    match b with
    | 125 :: r => if first then some ([], r) else none
    | 34 :: r =>
      match parseStrBody r with
      | none => none
      | some (k, r2) =>
        match skipWs r2 with
        | 58 :: r3 =>
          match parseVal fuel r3 with
          | none => none
          | some (v, r4) =>
            match skipWs r4 with
            | 44 :: r5 =>
              (parseMembers fuel false (skipWs r5)).map
                (fun pr => ((k, v) :: pr.1, pr.2))
            | 125 :: r5 => some ([(k, v)], r5)
            | _ => none
        | _ => none
    | _ => none

/-- Elements of a JSON array after the opening bracket (and whitespace). -/
def parseElems : Nat → Bool → B → Option (List GoVal × B)
  | 0, _, _ => none
  | fuel + 1, first, b =>
    match b with
    | 93 :: r => if first then some ([], r) else none
    | _ =>
      match parseVal fuel b with
      | none => none
      | some (v, r2) =>
        match skipWs r2 with
        | 44 :: r3 => (parseElems fuel false (skipWs r3)).map
            (fun pr => (v :: pr.1, pr.2))
        | 93 :: r3 => some ([v], r3)
        | _ => none

end

/-- `json.Unmarshal(body, &tmp)` with `tmp : map[string]interface{}`: the
    document must be a single JSON object followed only by whitespace.  The
    member list is kept in document order; duplicate keys collapse last-wins
    when the list is folded into a map. -/
def jsonUnmarshalObj (b : B) : Option (List (B × GoVal)) :=
  match parseVal (b.length + 1) b with
  | some (.obj fs, rest) => if (skipWs rest).isEmpty then some fs else none
  | _ => none

/-- Outcome of one pass of `Connection.readOne` (eventsocket.go lines
    153-250).  `fatalErr` models `h.err <- err; return false` (the readLoop
    then stops and closes the socket); `protoErr` models `h.err <- errors.New
    (...); return true` (delivered to the caller blocked on the error
    channel, loop continues); the three event constructors model a send on
    the cmd, api and evt channels respectively with `return true`; `panics`
    models a Go runtime panic inside readOne; `processExit` models
    `log.Fatal`, which exits the whole process. -/
inductive ReadResult
  | fatalErr
  | protoErr (msg : B)
  | cmdReply (e : Event)
  | apiReply (e : Event)
  | async (e : Event)
  | panics
  | processExit

/-- Constructor index, used to separate `ReadResult` values without a
    decidable equality on the event payloads. -/
def ReadResult.tag : ReadResult → Nat
  | .fatalErr => 0
  | .protoErr _ => 1
  | .cmdReply _ => 2
  | .apiReply _ => 3
  | .async _ => 4
  | .panics => 5
  | .processExit => 6

/-- The boolean `readOne` returns to `readLoop`: `false` stops the loop and
    closes the connection.  A panic or process exit never returns at all;
    `false` is used as the placeholder for those. -/
def readOneContinues : ReadResult → Bool
  | .fatalErr => false
  | .protoErr _ => true
  | .cmdReply _ => true
  | .apiReply _ => true
  | .async _ => true
  | .panics => false
  | .processExit => false

/-- Outcome of the Content-Length / body-read prologue. -/
inductive BodyRes
  | ok (body : B)
  | fatal
  | crash

/-- Lines 161-173 of readOne (also reused verbatim for the nested
    text/event-plain sub-frame at lines 203-215): with a non-empty
    Content-Length, `strconv.Atoi` failure is sent on the error channel
    (fatal); a negative parsed length makes `make([]byte, length)` panic;
    otherwise exactly `length` bytes are read with `io.ReadFull`, whose
    short-read error is fatal.  `stream` holds every byte available before
    EOF. -/
def readBody (hdr : List (B × B)) (stream : B) : BodyRes :=
  if hdrGet hdr (asBytes "Content-Length") = [] then .ok []
  else
    match atoi (hdrGet hdr (asBytes "Content-Length")) with
    | none => .fatal
    | some n =>
      if n < 0 then .crash
      else if (stream.length : Int) < n then .fatal
      else .ok (stream.take n.toNat)

/-- The command/reply branch (lines 175-186).  `reply[:2]` panics when the
    reply text is shorter than two bytes, and `reply[5:]` panics when an
    error-marked reply is shorter than five; otherwise an error-marked reply
    is a recoverable protocol error, and a normal reply copies the headers,
    percent-decoding them exactly when the reply text starts with '%'. -/
def replyBranch (reply : B) (hdr : List (B × B)) (body : B) : ReadResult :=
  if reply.length < 2 then .panics
  else if reply.take 2 = asBytes "-E" then
    if reply.length < 5 then .panics else .protoErr (reply.drop 5)
  else
    .cmdReply ⟨copyHeaders (dedupKeys hdr) [] (reply.head? == some 37), body⟩

/-- The api/response branch (lines 187-193).  `resp.Body[:2]` panics when
    the body is shorter than two bytes; an error-marked body is a
    recoverable protocol error with the text after the five-byte prefix. -/
def apiBranch (hdr : List (B × B)) (body : B) : ReadResult :=
  if body.length < 2 then .panics
  else if body.take 2 = asBytes "-E" then
    if body.length < 5 then .panics else .protoErr (body.drop 5)
  else .apiReply ⟨copyHeaders (dedupKeys hdr) [] false, body⟩

/-- The text/event-plain branch (lines 194-217): the outer body is re-read
    as a full nested header block, the nested Content-Length prologue runs
    against the bytes after it, and the nested headers are copied with
    percent-decoding. -/
def eventPlainBranch (body : B) : ReadResult :=
  match mimeParse (body.length + 1) body with
  | none => .fatalErr
  | some (nhdr, rest) =>
    match readBody nhdr rest with
    | .fatal => .fatalErr
    | .crash => .panics
    | .ok nbody => .async ⟨copyHeaders (dedupKeys nhdr) [] true, nbody⟩

/-- The post-unmarshal processing of the text/event-json branch (lines
    225-242).  Every key is capitalized (an empty JSON key makes
    `capitalize` index `s[0]` and panic); then a present `_body` entry is
    examined through `v != nil`: a JSON null reads as nil, so the else
    branch runs and the `_body` key stays in the header; a string value
    becomes the Body and the key is deleted; every other value hits the
    switch default (the `case int` being unreachable), so the Body is empty
    and the key is deleted. -/
def jsonHeader (fields : List (B × GoVal)) : List (B × GoVal) :=
  fields.foldl (fun acc p => insertKV acc (capitalize p.1) p.2) []

def eventJsonFields (fields : List (B × GoVal)) : ReadResult :=
  if fields.any (fun p => p.1.isEmpty) then .panics
  else
    match lookupKV (jsonHeader fields) (asBytes "_body") with
    | some (.str s) => .async ⟨removeKV (jsonHeader fields) (asBytes "_body"), s⟩
    | some .null => .async ⟨jsonHeader fields, []⟩
    | some _ => .async ⟨removeKV (jsonHeader fields) (asBytes "_body"), []⟩
    | none => .async ⟨jsonHeader fields, []⟩

/-- The text/event-json branch (lines 218-242): an unmarshal error is sent
    on the error channel with `return false` (fatal). -/
def eventJsonBranch (body : B) : ReadResult :=
  match jsonUnmarshalObj body with
  | none => .fatalErr
  | some fields => eventJsonFields fields

/-- The Content-Type dispatch of readOne (lines 174-248). -/
def dispatch (hdr : List (B × B)) (body : B) : ReadResult :=
  if hdrGet hdr (asBytes "Content-Type") = asBytes "command/reply" then
    replyBranch (hdrGet hdr (asBytes "Reply-Text")) hdr body
  else if hdrGet hdr (asBytes "Content-Type") = asBytes "api/response" then
    apiBranch hdr body
  else if hdrGet hdr (asBytes "Content-Type") = asBytes "text/event-plain" then
    eventPlainBranch body
  else if hdrGet hdr (asBytes "Content-Type") = asBytes "text/event-json" then
    eventJsonBranch body
  else if hdrGet hdr (asBytes "Content-Type") = asBytes "text/disconnect-notice" then
    .async ⟨copyHeaders (dedupKeys hdr) [] false, body⟩
  else .processExit

/-- `Connection.readOne` after `ReadMIMEHeader` succeeded: `hdr` is the
    parsed header block and `stream` the bytes following it. -/
def readOne (hdr : List (B × B)) (stream : B) : ReadResult :=
  match readBody hdr stream with
  | .fatal => .fatalErr
  | .crash => .panics
  | .ok body => dispatch hdr body

/-- `strings.IndexAny(s, CRLF-chars) > 0`, the exact guard the library uses
    before writing: true only when a CR or LF occurs at a positive index. -/
def indexAnyGt0 (s : B) : Bool :=
  match s.findIdx? (fun c => c == 13 || c == 10) with
  | some i => decide (0 < i)
  | none => false

/-- `Connection.Send` (lines 332-350) up to the write: `none` is the
    validation error returned before any byte is written, `some w` the
    bytes written to the stream (the command plus the two-CRLF
    terminator). -/
def Send (command : B) : Option B :=
  if indexAnyGt0 command then none
  else some (command ++ [13, 10, 13, 10])

/-- Field lines of a sendmsg block (lines 388-399): each key is CR/LF
    checked, empty-valued fields are skipped entirely, and a kept field is
    CR/LF checked on the value and written as `key: value LF`. -/
def msgLines : List (B × B) → Option B
  | [] => some []
  | (k, v) :: rest =>
    if indexAnyGt0 k then none
    else if v = [] then msgLines rest
    else if indexAnyGt0 v then none
    else (msgLines rest).map (fun t => k ++ [58, 32] ++ v ++ [10] ++ t)

/-- `Connection.SendMsg` (lines 378-417) up to the write: the `sendmsg`
    command line with an optional CR/LF-checked UUID, the field lines, a
    blank line, and the payload appended exactly when a non-empty
    `content-length` field was set and the payload is non-empty.  `none` is
    the validation error returned before any byte is written.  The Go map is
    modelled as an association list in iteration order. -/
def SendMsg (m : List (B × B)) (uuid : B) (appData : B) : Option B :=
  let start : Option B :=
    if uuid = [] then some (asBytes "sendmsg" ++ [10])
    else if indexAnyGt0 uuid then none
    else some (asBytes "sendmsg" ++ [32] ++ uuid ++ [10])
  match start, msgLines m with
  | some s, some ls =>
    let cl := ((m.find? (fun p => p.1 = asBytes "content-length")).map Prod.snd).getD []
    some (s ++ ls ++ [10] ++ (if cl ≠ [] ∧ appData ≠ [] then appData else []))
  | _, _ => none

/-- `Connection.Execute` (lines 427-440): SendMsg with the fixed field set,
    `event-lock` carrying `true` only when requested and the empty string
    otherwise (so that it is omitted). -/
def Execute (appName appArg : B) (lock : Bool) : Option B :=
  SendMsg
    [(asBytes "call-command", asBytes "execute"),
     (asBytes "execute-app-name", appName),
     (asBytes "execute-app-arg", appArg),
     (asBytes "event-lock", if lock then asBytes "true" else [])]
    [] []

/-- The four channels of a `Connection` (eventsocket.go lines 46-47). -/
inductive Chan
  | err
  | cmd
  | api
  | evt
deriving DecidableEq

/-- The channel a readOne outcome is delivered on (none when readOne panics
    or exits the process and nothing is delivered). -/
def routedChan : ReadResult → Option Chan
  | .fatalErr => some .err
  | .protoErr _ => some .err
  | .cmdReply _ => some .cmd
  | .apiReply _ => some .api
  | .async _ => some .evt
  | .panics => none
  | .processExit => none

/-- The select cases `Send` blocks on (lines 342-349). -/
def sendSelects : List Chan := [.err, .cmd, .api]

/-- The select cases `SendMsg` blocks on (lines 411-416). -/
def sendMsgSelects : List Chan := [.err, .cmd]

/-- Modelled from the spec: "parsing the resulting bytes back as a header
    block" (spec §8 round-trip property).  `Name: value` lines after the
    sendmsg command line, up to the blank line, without canonicalization. -/
def specParseLines : List B → Option (List (B × B))
  | [] => none
  | l :: ls =>
    if l = [] then some []
    else
      match l.findIdx? (fun c => c == 58) with
      | none => none
      | some i =>
        (specParseLines ls).map
          (fun t => (l.take i, (l.drop (i + 1)).dropWhile (fun c => c == 32)) :: t)

/-- Modelled from the spec: the whole encoded sendmsg block parsed back as a
    command line followed by a header block. -/
def specParseHeaderBlock (b : B) : Option (List (B × B)) :=
  match List.splitOn 10 b with
  | [] => none
  | _cmd :: rest => specParseLines rest

/-! ### Helper lemmas about the byte-level case transforms -/

theorem lowerB_lowerB (c : Nat) : lowerB (lowerB c) = lowerB c := by
  unfold lowerB; split_ifs <;> omega

theorem lowerB_upperB (c : Nat) : lowerB (upperB c) = lowerB c := by
  unfold lowerB upperB; split_ifs <;> omega

theorem map_lowerB_lowerB (l : B) : (l.map lowerB).map lowerB = l.map lowerB := by
  rw [List.map_map]
  exact List.map_congr_left (fun a _ => lowerB_lowerB a)

theorem map_lowerB_camelGo (b : Bool) (l : B) :
    (camelGo b l).map lowerB = l.map lowerB := by
  induction l generalizing b with
  | nil => cases b <;> rfl
  | cons c rest ih =>
    cases b with
    | true => simp [camelGo, lowerB_upperB, ih]
    | false => simp [camelGo, ih]

theorem camelGo_length (b : Bool) (l : B) : (camelGo b l).length = l.length := by
  induction l generalizing b with
  | nil => cases b <;> rfl
  | cons c rest ih => cases b <;> simp [camelGo, ih]

theorem capitalize_underscore (s : B) (h : s.head? = some 95) :
    capitalize s = s := by
  unfold capitalize; rw [if_pos h]

theorem capitalize_variable (s : B) (h95 : ¬ s.head? = some 95)
    (hv : 9 < s.length ∧ (s.drop 1).take 8 = asBytes "ariable_") :
    capitalize s = 86 :: (s.map lowerB).drop 1 := by
  unfold capitalize; rw [if_neg h95, if_pos hv]

theorem capitalize_general (s : B) (h95 : ¬ s.head? = some 95)
    (hv : ¬ (9 < s.length ∧ (s.drop 1).take 8 = asBytes "ariable_")) :
    capitalize s = camelGo true (s.map lowerB) := by
  unfold capitalize; rw [if_neg h95, if_neg hv]

/-- C7 counterexample: the claim "Normalize(Normalize(K)) == Normalize(K)
    for every non-empty key K" fails at K = `aAriable_b`: the first
    normalization yields `Aariable_B` (the general rule, since byte 1 is an
    upper-case 'A'), which the second normalization matches against the
    `ariable_` rule and rewrites to `Variable_b`. -/
theorem capitalize_not_idempotent_mixed_variable :
    ¬ capitalize (capitalize (asBytes "aAriable_b")) =
        capitalize (asBytes "aAriable_b") := by decide

/-- C7 (amended): `capitalize` is idempotent for every non-empty key except
    those whose bytes 1..8 lower-case to `ariable_` without literally
    equalling `ariable_`.  The hypothesis `hmix` states that exclusion:
    whenever the lower-cased bytes 1..8 of a long key match `ariable_`, the
    original bytes already match it. -/
theorem capitalize_idem_of_no_mixed_variable (s : B) (h0 : s ≠ [])
    (hmix : (9 < s.length ∧ ((s.drop 1).take 8).map lowerB = asBytes "ariable_") →
        (s.drop 1).take 8 = asBytes "ariable_") :
    capitalize (capitalize s) = capitalize s := by
  by_cases h95 : s.head? = some 95
  · rw [capitalize_underscore s h95, capitalize_underscore s h95]
  · by_cases hv : 9 < s.length ∧ (s.drop 1).take 8 = asBytes "ariable_"
    · rw [capitalize_variable s h95 hv]
      have ht95 : ¬ ((86 : Nat) :: (s.map lowerB).drop 1).head? = some 95 := by
        simp
      have htv : 9 < ((86 : Nat) :: (s.map lowerB).drop 1).length ∧
          (((86 : Nat) :: (s.map lowerB).drop 1).drop 1).take 8 =
            asBytes "ariable_" := by
        constructor
        · have h1 := hv.1
          simp only [List.length_cons, List.length_drop, List.length_map]
          omega
        · show ((s.map lowerB).drop 1).take 8 = asBytes "ariable_"
          rw [← List.map_drop, ← List.map_take, hv.2]
          decide
      rw [capitalize_variable _ ht95 htv]
      show (86 : Nat) :: ((lowerB 86 :: ((s.map lowerB).drop 1).map lowerB).drop 1) =
          86 :: (s.map lowerB).drop 1
      rw [List.drop_one, List.tail_cons, ← List.map_drop, map_lowerB_lowerB,
        List.map_drop]
    · rw [capitalize_general s h95 hv]
      obtain ⟨c, rest, rfl⟩ : ∃ c rest, s = c :: rest := by
        cases s with
        | nil => exact absurd rfl h0
        | cons c rest => exact ⟨c, rest, rfl⟩
      have hc95 : c ≠ 95 := fun hc => h95 (by simp [hc])
      have ht95 : ¬ (camelGo true ((c :: rest).map lowerB)).head? = some 95 := by
        show ¬ (upperB (lowerB c) :: camelGo false (rest.map lowerB)).head? = some 95
        simp only [List.head?_cons, Option.some.injEq]
        intro h
        apply hc95
        revert h
        unfold upperB lowerB
        split_ifs <;> omega
      have htv : ¬ (9 < (camelGo true ((c :: rest).map lowerB)).length ∧
          ((camelGo true ((c :: rest).map lowerB)).drop 1).take 8 =
            asBytes "ariable_") := by
        rintro ⟨hl, he⟩
        apply hv
        have hlen : 9 < (c :: rest).length := by
          simpa [camelGo_length, List.length_map] using hl
        refine ⟨hlen, ?_⟩
        apply hmix
        refine ⟨hlen, ?_⟩
        have h1 : ((((camelGo true ((c :: rest).map lowerB)).drop 1).take 8).map
            lowerB) = asBytes "ariable_" := by rw [he]; decide
        rw [List.map_take, List.map_drop, map_lowerB_camelGo,
          map_lowerB_lowerB] at h1
        rw [List.map_take, List.map_drop]
        exact h1
      rw [capitalize_general _ ht95 htv, map_lowerB_camelGo, map_lowerB_lowerB]

/-- C7 witness: the amended idempotence theorem applied at the spec's own
    example key `job-uuid`. -/
theorem capitalize_idem_witness :
    capitalize (capitalize (asBytes "job-uuid")) = capitalize (asBytes "job-uuid") :=
  capitalize_idem_of_no_mixed_variable (asBytes "job-uuid") (by decide) (by decide)

/-! ### Claim theorems -/

/-- C1: contrary to the claim (and to the function's own doc comment,
    "returns an Event value, or an empty string if the key does not
    exist"), `Event.Get` fails: the type assertion `Header[key].(string)`
    panics (modelled by `none`) when the key is absent, and equally on a
    JSON-decoded header whose stored value is a non-string JSON value —
    here the event decoded from the JSON object with field `a = 1`. -/
theorem get_absent_or_nonstring_is_panic :
    Event.Get ⟨[], []⟩ (asBytes "X") = none ∧
    Event.Get ⟨[(asBytes "A", GoVal.num (asBytes "1"))], []⟩ (asBytes "A") = none ∧
    eventJsonFields [(asBytes "a", GoVal.num (asBytes "1"))] =
      .async ⟨[(asBytes "A", GoVal.num (asBytes "1"))], []⟩ :=
  ⟨rfl, rfl, rfl⟩

/-- C3: the validation guard is `strings.IndexAny(command, CRLF) > 0`, so a
    command whose only CR/LF sits at index 0 is not rejected: `Send` writes
    it (with the two-CRLF terminator) instead of returning a validation
    error, while the spec's own example `bad\r\ncommand` is rejected. -/
theorem send_leading_linefeed_not_rejected :
    Send (asBytes "\nfoo") = some (asBytes "\nfoo" ++ [13, 10, 13, 10]) ∧
    Send (asBytes "bad\r\ncommand") = none :=
  ⟨rfl, rfl⟩

/-- C9 counterexample: an api-reply is routed on the api channel, which is
    among the channels `Send` selects on but not among those `SendMsg`
    selects on — so for a request issued through `SendMsg` the claim fails:
    an api-reply does not satisfy its wait. -/
theorem api_reply_not_in_sendmsg_select :
    routedChan (.apiReply ⟨[], []⟩) = some Chan.api ∧
    ¬ Chan.api ∈ sendMsgSelects ∧ Chan.api ∈ sendSelects :=
  ⟨rfl, by decide, by decide⟩

/-- C9 (amended): a command-reply satisfies the single blocking wait of
    both `Send` and `SendMsg`; an api-reply satisfies only `Send`'s wait,
    since `SendMsg` selects only on the error and command channels. -/
theorem sync_reply_channels_spec (e : Event) :
    (routedChan (.cmdReply e) = some Chan.cmd ∧ Chan.cmd ∈ sendSelects ∧
      Chan.cmd ∈ sendMsgSelects) ∧
    (routedChan (.apiReply e) = some Chan.api ∧ Chan.api ∈ sendSelects ∧
      ¬ Chan.api ∈ sendMsgSelects) :=
  ⟨⟨rfl, by decide, by decide⟩, ⟨rfl, by decide, by decide⟩⟩

/-- C9 witness: the channel-selection theorem at a concrete event. -/
theorem sync_reply_channels_spec_witness :
    (routedChan (.cmdReply ⟨[], []⟩) = some Chan.cmd ∧ Chan.cmd ∈ sendSelects ∧
      Chan.cmd ∈ sendMsgSelects) ∧
    (routedChan (.apiReply ⟨[], []⟩) = some Chan.api ∧ Chan.api ∈ sendSelects ∧
      ¬ Chan.api ∈ sendMsgSelects) :=
  sync_reply_channels_spec ⟨[], []⟩

/-- C10: an api/response frame whose body is shorter than two bytes makes
    the decoder panic on `resp.Body[:2]` instead of producing an error or
    an event. -/
theorem api_response_short_body_panics
    (hdr : List (B × B)) (stream body : B)
    (hb : readBody hdr stream = .ok body)
    (hct : hdrGet hdr (asBytes "Content-Type") = asBytes "api/response")
    (hlen : body.length < 2) :
    readOne hdr stream = .panics := by
  unfold readOne
  rw [hb]
  show dispatch hdr body = .panics
  unfold dispatch
  rw [hct, if_neg (by decide), if_pos rfl]
  unfold apiBranch
  rw [if_pos hlen]

/-- C10 witness: an api/response frame with no Content-Length header has an
    empty body and the decoder panics. -/
theorem api_response_short_body_panics_witness :
    readOne [(asBytes "Content-Type", asBytes "api/response")] [] = .panics :=
  api_response_short_body_panics [(asBytes "Content-Type", asBytes "api/response")]
    [] [] rfl rfl (by decide)

/-- C2 counterexample: a command/reply frame whose Reply-Text is exactly
    `-E` begins with the error marker, yet decoding panics on `reply[5:]`
    instead of producing the recoverable protocol error the claim
    promises. -/
theorem cmdReply_short_error_marker_panics :
    readOne [(asBytes "Content-Type", asBytes "command/reply"),
             (asBytes "Reply-Text", asBytes "-E")] [] = .panics ∧
    ¬ readOne [(asBytes "Content-Type", asBytes "command/reply"),
               (asBytes "Reply-Text", asBytes "-E")] [] = .protoErr [] :=
  ⟨rfl, fun h => absurd (congrArg ReadResult.tag h) (by decide)⟩

/-- C2 (amended): for a command/reply frame whose body prologue succeeds
    and whose Reply-Text is at least five bytes long and starts with `-E`,
    decoding yields a recoverable protocol error carrying the reply text
    after the fixed 5-byte prefix, delivered on the error channel, and the
    read loop continues (the connection stays open). -/
theorem cmdReply_error_marker_recoverable
    (hdr : List (B × B)) (stream body reply : B)
    (hb : readBody hdr stream = .ok body)
    (hct : hdrGet hdr (asBytes "Content-Type") = asBytes "command/reply")
    (hrt : hdrGet hdr (asBytes "Reply-Text") = reply)
    (hmark : reply.take 2 = asBytes "-E")
    (hlen : 5 ≤ reply.length) :
    readOne hdr stream = .protoErr (reply.drop 5) ∧
      readOneContinues (.protoErr (reply.drop 5)) = true := by
  constructor
  · unfold readOne
    rw [hb]
    show dispatch hdr body = _
    unfold dispatch
    rw [hct, if_pos rfl, hrt]
    unfold replyBranch
    rw [if_neg (by omega), if_pos hmark, if_neg (by omega)]
  · rfl

/-- C2 witness: the spec's example frame, Reply-Text `-ERR no such
    channel`, decodes to the recoverable protocol error `no such channel`
    and the loop continues. -/
theorem cmdReply_error_marker_recoverable_witness :
    readOne [(asBytes "Content-Type", asBytes "command/reply"),
             (asBytes "Reply-Text", asBytes "-ERR no such channel")] [] =
      .protoErr ((asBytes "-ERR no such channel").drop 5) ∧
      readOneContinues (.protoErr ((asBytes "-ERR no such channel").drop 5)) = true :=
  cmdReply_error_marker_recoverable
    [(asBytes "Content-Type", asBytes "command/reply"),
     (asBytes "Reply-Text", asBytes "-ERR no such channel")] [] []
    (asBytes "-ERR no such channel") rfl rfl rfl (by decide) (by decide)

/-- C5 counterexample: a frame with Content-Length `-1` is accepted by
    `strconv.Atoi`, so no fatal error is produced; instead
    `make([]byte, -1)` panics, crashing the reader. -/
theorem negative_content_length_crashes :
    readOne [(asBytes "Content-Length", asBytes "-1")] [] = .panics ∧
    ¬ readOne [(asBytes "Content-Length", asBytes "-1")] [] = .fatalErr :=
  ⟨rfl, fun h => absurd (congrArg ReadResult.tag h) (by decide)⟩

/-- C5 (amended): a non-empty Content-Length value is parsed as a signed
    integer; a parse failure is a fatal error that stops the read loop; a
    non-negative value within the available stream reads exactly that many
    bytes as the frame's body; a negative value makes the body allocation
    panic rather than producing a fatal error. -/
theorem content_length_parse_spec
    (hdr : List (B × B)) (stream v : B)
    (hv : hdrGet hdr (asBytes "Content-Length") = v)
    (hne : v ≠ []) :
    (atoi v = none →
      readOne hdr stream = .fatalErr ∧ readOneContinues .fatalErr = false) ∧
    (∀ n : Int, atoi v = some n → 0 ≤ n → n.toNat ≤ stream.length →
      readBody hdr stream = .ok (stream.take n.toNat)) ∧
    (∀ n : Int, atoi v = some n → n < 0 →
      readBody hdr stream = .crash ∧ readOne hdr stream = .panics) := by
  refine ⟨?_, ?_, ?_⟩
  · intro ha
    refine ⟨?_, rfl⟩
    unfold readOne readBody
    rw [hv, if_neg hne, ha]
  · intro n ha h0 hle
    unfold readBody
    rw [hv, if_neg hne, ha]
    show (if n < 0 then BodyRes.crash
      else if (stream.length : Int) < n then .fatal
      else .ok (stream.take n.toNat)) = .ok (stream.take n.toNat)
    rw [if_neg (by omega), if_neg (by omega)]
  · intro n ha hn
    constructor
    · unfold readBody
      rw [hv, if_neg hne, ha]
      show (if n < 0 then BodyRes.crash
        else if (stream.length : Int) < n then .fatal
        else .ok (stream.take n.toNat)) = .crash
      rw [if_pos hn]
    · unfold readOne readBody
      rw [hv, if_neg hne, ha]
      show (match (if n < 0 then BodyRes.crash
          else if (stream.length : Int) < n then .fatal
          else .ok (stream.take n.toNat)) with
        | .fatal => ReadResult.fatalErr
        | .crash => ReadResult.panics
        | .ok body => dispatch hdr body) = ReadResult.panics
      rw [if_pos hn]

/-- C5 witness: Content-Length `3` against a five-byte stream reads exactly
    the first three bytes as the body. -/
theorem content_length_parse_spec_witness :
    readBody [(asBytes "Content-Length", asBytes "3")] (asBytes "abcde") =
      .ok ((asBytes "abcde").take (Int.toNat 3)) :=
  (content_length_parse_spec [(asBytes "Content-Length", asBytes "3")]
    (asBytes "abcde") (asBytes "3") rfl (by decide)).2.1 3 rfl (by decide) (by decide)

/-- C6 counterexample: a frame with the unrecognized Content-Type
    `text/xml` makes the decoder call `log.Fatal`, which exits the whole
    process: no error is delivered on the error path (the result is not the
    fatal-error delivery the claim describes). -/
theorem unknown_content_type_exits_process :
    readOne [(asBytes "Content-Type", asBytes "text/xml")] [] = .processExit ∧
    ¬ readOne [(asBytes "Content-Type", asBytes "text/xml")] [] = .fatalErr :=
  ⟨rfl, fun h => absurd (congrArg ReadResult.tag h) (by decide)⟩

/-- C6 (amended): for any frame whose body prologue succeeds and whose
    Content-Type is none of the five recognized values, decoding calls
    `log.Fatal` and terminates the whole process — the error channel and
    the connection-close path are never reached. -/
theorem unknown_content_type_spec
    (hdr : List (B × B)) (stream body : B)
    (hb : readBody hdr stream = .ok body)
    (h1 : ¬ hdrGet hdr (asBytes "Content-Type") = asBytes "command/reply")
    (h2 : ¬ hdrGet hdr (asBytes "Content-Type") = asBytes "api/response")
    (h3 : ¬ hdrGet hdr (asBytes "Content-Type") = asBytes "text/event-plain")
    (h4 : ¬ hdrGet hdr (asBytes "Content-Type") = asBytes "text/event-json")
    (h5 : ¬ hdrGet hdr (asBytes "Content-Type") = asBytes "text/disconnect-notice") :
    readOne hdr stream = .processExit ∧
      readOneContinues .processExit = false := by
  refine ⟨?_, rfl⟩
  unfold readOne
  rw [hb]
  show dispatch hdr body = _
  unfold dispatch
  rw [if_neg h1, if_neg h2, if_neg h3, if_neg h4, if_neg h5]

/-- C6 witness: the unrecognized-Content-Type theorem at the `text/xml`
    frame. -/
theorem unknown_content_type_spec_witness :
    readOne [(asBytes "Content-Type", asBytes "text/xml")] [] = .processExit ∧
      readOneContinues .processExit = false :=
  unknown_content_type_spec [(asBytes "Content-Type", asBytes "text/xml")] [] []
    rfl (by decide) (by decide) (by decide) (by decide) (by decide)

/-- C4 counterexample: a text/event-json frame whose `_body` is the JSON
    number 7 decodes with an EMPTY Body, not the text form `7` the claim
    promises (json.Unmarshal stores the number as float64, which falls to
    the switch default; the `case int` branch is unreachable); and a
    `_body` of JSON null leaves the `_body` key IN the header mapping,
    while the claim says a present `_body` key is always removed. -/
theorem eventJson_nonstring_body_counterexample :
    readOne [(asBytes "Content-Type", asBytes "text/event-json"),
             (asBytes "Content-Length", asBytes "11")]
        (asBytes "\x7b\"_body\":7\x7d") = .async ⟨[], []⟩ ∧
    ¬ asBytes "7" = ([] : B) ∧
    readOne [(asBytes "Content-Type", asBytes "text/event-json"),
             (asBytes "Content-Length", asBytes "22")]
        (asBytes "\x7b\"a\":\"x\",\"_body\":null\x7d") =
      .async ⟨[(asBytes "A", .str (asBytes "x")), (asBytes "_body", .null)], []⟩ :=
  ⟨rfl, by decide, rfl⟩

/-- C4 (amended): a text/event-json frame whose body unmarshals to an
    object with no empty key decodes to an async-event whose header is the
    key-capitalized mapping; a `_body` entry holding a string becomes the
    Body verbatim and the key is removed; an absent `_body` gives an empty
    Body; a null `_body` gives an empty Body and the key STAYS in the
    header; any other `_body` value gives an empty Body and the key is
    removed. -/
theorem eventJson_decode_behavior
    (hdr : List (B × B)) (stream body : B) (fields : List (B × GoVal))
    (hb : readBody hdr stream = .ok body)
    (hct : hdrGet hdr (asBytes "Content-Type") = asBytes "text/event-json")
    (hj : jsonUnmarshalObj body = some fields)
    (hk : fields.any (fun p => p.1.isEmpty) = false) :
    readOne hdr stream = eventJsonFields fields ∧
    (lookupKV (jsonHeader fields) (asBytes "_body") = none →
      eventJsonFields fields = .async ⟨jsonHeader fields, []⟩) ∧
    (∀ s, lookupKV (jsonHeader fields) (asBytes "_body") = some (.str s) →
      eventJsonFields fields =
        .async ⟨removeKV (jsonHeader fields) (asBytes "_body"), s⟩) ∧
    (lookupKV (jsonHeader fields) (asBytes "_body") = some .null →
      eventJsonFields fields = .async ⟨jsonHeader fields, []⟩) ∧
    (∀ v, lookupKV (jsonHeader fields) (asBytes "_body") = some v →
      (∀ s, ¬ v = .str s) → ¬ v = .null →
      eventJsonFields fields =
        .async ⟨removeKV (jsonHeader fields) (asBytes "_body"), []⟩) := by
  have hkne : ¬ fields.any (fun p => p.1.isEmpty) = true := by simp [hk]
  refine ⟨?_, ?_, ?_, ?_, ?_⟩
  · unfold readOne
    rw [hb]
    show dispatch hdr body = _
    unfold dispatch
    rw [hct, if_neg (by decide), if_neg (by decide), if_neg (by decide), if_pos rfl]
    unfold eventJsonBranch
    rw [hj]
  · intro h
    unfold eventJsonFields
    rw [if_neg hkne, h]
  · intro s h
    unfold eventJsonFields
    rw [if_neg hkne, h]
  · intro h
    unfold eventJsonFields
    rw [if_neg hkne, h]
  · intro v h hs hn
    cases v with
    | str s => exact absurd rfl (hs s)
    | null => exact absurd rfl hn
    | num lit => unfold eventJsonFields; rw [if_neg hkne, h]
    | boolean b => unfold eventJsonFields; rw [if_neg hkne, h]
    | arr xs => unfold eventJsonFields; rw [if_neg hkne, h]
    | obj fs => unfold eventJsonFields; rw [if_neg hkne, h]

/-- C4 witness: the spec's example frame, JSON body with Event-Name
    `CHANNEL_HANGUP` and `_body` `payload`, decodes to an async-event with
    the normalized header, Body `payload`, and `_body` removed. -/
theorem eventJson_decode_behavior_witness :
    readOne [(asBytes "Content-Type", asBytes "text/event-json"),
             (asBytes "Content-Length", asBytes "49")]
        (asBytes "\x7b\"Event-Name\":\"CHANNEL_HANGUP\",\"_body\":\"payload\"\x7d") =
      eventJsonFields
        [(asBytes "Event-Name", .str (asBytes "CHANNEL_HANGUP")),
         (asBytes "_body", .str (asBytes "payload"))] ∧
    eventJsonFields
        [(asBytes "Event-Name", .str (asBytes "CHANNEL_HANGUP")),
         (asBytes "_body", .str (asBytes "payload"))] =
      .async ⟨removeKV (jsonHeader
          [(asBytes "Event-Name", .str (asBytes "CHANNEL_HANGUP")),
           (asBytes "_body", .str (asBytes "payload"))]) (asBytes "_body"),
        asBytes "payload"⟩ := by
  have h := eventJson_decode_behavior
    [(asBytes "Content-Type", asBytes "text/event-json"),
     (asBytes "Content-Length", asBytes "49")]
    (asBytes "\x7b\"Event-Name\":\"CHANNEL_HANGUP\",\"_body\":\"payload\"\x7d")
    (asBytes "\x7b\"Event-Name\":\"CHANNEL_HANGUP\",\"_body\":\"payload\"\x7d")
    [(asBytes "Event-Name", .str (asBytes "CHANNEL_HANGUP")),
     (asBytes "_body", .str (asBytes "payload"))]
    rfl rfl rfl rfl
  exact ⟨h.1, h.2.2.1 (asBytes "payload") rfl⟩

/-- C8: encoding the spec's SendMsg field set (with `event-lock` present
    but empty) and parsing the produced bytes back as a header block yields
    exactly the three non-empty fields with no `event-lock` line — in the
    written order and, for a permuted field set, up to permutation. -/
theorem sendmsg_encode_roundtrip :
    ((SendMsg
        [(asBytes "call-command", asBytes "execute"),
         (asBytes "execute-app-name", asBytes "playback"),
         (asBytes "execute-app-arg", asBytes "/tmp/x.wav"),
         (asBytes "event-lock", [])] [] []).bind specParseHeaderBlock =
      some
        [(asBytes "call-command", asBytes "execute"),
         (asBytes "execute-app-name", asBytes "playback"),
         (asBytes "execute-app-arg", asBytes "/tmp/x.wav")]) ∧
    (((SendMsg
        [(asBytes "event-lock", []),
         (asBytes "execute-app-arg", asBytes "/tmp/x.wav"),
         (asBytes "call-command", asBytes "execute"),
         (asBytes "execute-app-name", asBytes "playback")] [] []).bind
          specParseHeaderBlock).getD []).Perm
      [(asBytes "call-command", asBytes "execute"),
       (asBytes "execute-app-name", asBytes "playback"),
       (asBytes "execute-app-arg", asBytes "/tmp/x.wav")] ∧
    ¬ (asBytes "event-lock") ∈
      (((SendMsg
        [(asBytes "call-command", asBytes "execute"),
         (asBytes "execute-app-name", asBytes "playback"),
         (asBytes "execute-app-arg", asBytes "/tmp/x.wav"),
         (asBytes "event-lock", [])] [] []).bind
          specParseHeaderBlock).getD []).map Prod.fst := by
  refine ⟨rfl, ?_, by decide⟩
  decide

end EventSocket
